import Mathlib

/-!
Verification of the agent control loop in `agent.py` (windows-ai-agent-toolset-v4).

The development shallowly embeds the program's data model and operations:

* Python floats are modelled by `PyFloat` (an exact rational for every finite
  value, plus `nan`, `inf`, `ninf`); the coordinate-clamping code only compares
  and substitutes, so no rounding behaviour is involved.
* JSON values produced by `json.loads` are modelled by `JVal`; Python dicts are
  association lists (keys produced by `json.loads` are unique, lookup is
  first-match).
* External library behaviour is kept abstract in an `Env` record:
  `Env.loads` models `json.loads` on strings, `Env.strFloat` models Python's
  `float()` applied to a string, `Env.capture` models
  `winapi.capture_screenshot_png` (one result per dump index), and
  `Env.b64enc` models `base64.b64encode(...).decode("ascii")`.
  Theorems quantify over these where possible; concrete instances are used for
  counterexamples, mirroring documented behaviour of the Python libraries
  (e.g. `json.loads` accepts the non-standard literals `NaN`, `Infinity`).
* Fallible parsing returns `Except`, with the error side carrying the JSON
  error envelope built by `_err_payload`.  Tool-result envelopes are kept in
  parsed form (`Content.json e` models a Python `str` holding the JSON
  serialization of `e`; serialization is only ever undone by `json.loads` in
  the pruner, and Python's round trip is the identity on these values).
-/

/-- Model of a Python float: exact finite values plus the three special values.
`float()` conversions and the clamping code in `_parse_xy` only compare and
copy values, so an exact model suffices. -/
inductive PyFloat where
  | finite (q : ℚ)
  | nan
  | inf
  | ninf
deriving DecidableEq

/-- Python `a < b` on floats: any comparison with `nan` is `False`. -/
def PyFloat.lt : PyFloat → PyFloat → Bool
  | .nan, _ => false
  | _, .nan => false
  | .ninf, .ninf => false
  | .ninf, _ => true
  | _, .ninf => false
  | .inf, _ => false
  | .finite _, .inf => true
  | .finite a, .finite b => decide (a < b)

/-- Python `a <= b` on floats: any comparison with `nan` is `False`. -/
def PyFloat.le : PyFloat → PyFloat → Bool
  | .nan, _ => false
  | _, .nan => false
  | .ninf, _ => true
  | _, .ninf => false
  | _, .inf => true
  | .inf, _ => false
  | .finite a, .finite b => decide (a ≤ b)

/-- Model of a Python value decoded from JSON (`json.loads` output):
`null`, booleans, numbers, strings, lists and dicts.  Python ints and floats
are both mapped to `num` (no claim distinguishes them). -/
inductive JVal where
  | null
  | bool (b : Bool)
  | num (x : PyFloat)
  | str (s : String)
  | arr (l : List JVal)
  | obj (l : List (String × JVal))

/-- Python `d.get(k)` on a dict: `some` value or `none` (Python `None`). -/
def dGet (l : List (String × JVal)) (k : String) : Option JVal :=
  (l.find? (fun p => p.1 == k)).map (fun p => p.2)

/-- Python truthiness of a decoded JSON value (`bool(v)`). -/
def pyTruthy : JVal → Bool
  | .null => false
  | .bool b => b
  | .num (.finite q) => decide (q ≠ 0)
  | .num _ => true          -- nan, inf, -inf are all truthy in Python
  | .str s => s ≠ ""
  | .arr l => !l.isEmpty
  | .obj l => !l.isEmpty

/-- Truthiness of a `d.get(k)` result (`None` is falsy). -/
def truthyO : Option JVal → Bool
  | none => false
  | some v => pyTruthy v

/-- Rendering of a `PyFloat` by Python `str()`.  The special values match
Python exactly; finite values use the rational's decimal/fraction rendering
(no claim depends on numeral formatting). -/
def pyFloatStr : PyFloat → String
  | .finite q => toString q
  | .nan => "nan"
  | .inf => "inf"
  | .ninf => "-inf"

/-- Python `str()` of a decoded JSON value.  Strings, booleans and `None`
match Python exactly; container rendering is abbreviated (no claim depends
on `str()` of a container). -/
def pyStr : JVal → String
  | .null => "None"
  | .bool true => "True"
  | .bool false => "False"
  | .num x => pyFloatStr x
  | .str s => s
  | .arr _ => "[...]"
  | .obj _ => "\x7b...\x7d"

/-- The raw `arguments` value taken from a tool call: Python `None`, a string,
or some other (non-string) Python value. -/
inductive PyVal where
  | pynone
  | str (s : String)
  | other
deriving DecidableEq

/-- `_ok_payload(extra)` (agent.py:73-77): the envelope `{"ok": true, ...extra}`.
The dict starts at `{"ok": True}` and is updated with `extra`; no caller's
`extra` contains the key `"ok"`, so consing is faithful. -/
def _ok_payload (extra : List (String × JVal)) : JVal :=
  .obj (("ok", .bool true) :: extra)

/-- `_err_payload(error_type, message)` (agent.py:80-85): the envelope
`{"ok": false, "error": {"type": ..., "message": ...}}`. -/
def _err_payload (error_type : String) (message : String) : JVal :=
  .obj [("ok", .bool false),
        ("error", .obj [("type", .str error_type), ("message", .str message)])]

/-- External-library behaviour, abstracted:
* `loads s` models `json.loads(s)`: a decoded value or a decode error whose
  string is the exception's `.msg`;
* `strFloat s` models Python `float(s)` on a string: a value, or `none` for
  the `ValueError` case;
* `capture i` models `winapi.capture_screenshot_png(target_w, target_h)` at
  dump index `i`: `(png_bytes, screen_w, screen_h)`;
* `b64enc` models `base64.b64encode(...).decode("ascii")`. -/
structure Env where
  loads : String → Except String JVal
  strFloat : String → Option PyFloat
  capture : Nat → String × Int × Int
  b64enc : String → String

/-- `_parse_args(arg_str)` (agent.py:88-99).  `None` is replaced by the text
`"{}"` before any other check; a non-string is rejected; the empty string is
treated as `{}` without consulting the decoder; decoded non-objects are
rejected.  The error side carries the `_err_payload` envelope. -/
def _parse_args (loads : String → Except String JVal) (arg_str : PyVal) :
    Except JVal (List (String × JVal)) :=
  let a := match arg_str with
    | .pynone => PyVal.str "\x7b\x7d"
    | v => v
  match a with
  | .str s =>
    if s = "" then .ok []
    else
      match loads s with
      | .error m =>
        .error (_err_payload "invalid_arguments" ("JSON decode error: " ++ m))
      | .ok (.obj l) => .ok l
      | .ok _ =>
        .error (_err_payload "invalid_arguments" "arguments must decode to an object")
  | _ => .error (_err_payload "invalid_arguments" "arguments must be a JSON string")

/-- Python `float(v)` on a decoded JSON value: numbers pass through, booleans
convert to `1.0` / `0.0` (Python `bool` is an `int` subtype), strings go
through the float-literal parser, everything else raises (`TypeError`). -/
def pyFloatOf (env : Env) : JVal → Option PyFloat
  | .num x => some x
  | .bool b => some (.finite (if b then 1 else 0))
  | .str s => env.strFloat s
  | _ => none

/-- The clamping chain of `_parse_xy` (agent.py:113-120):
`if v < 0.0: v = 0.0 elif v > 1000.0: v = 1000.0`.  Note `nan` fails both
comparisons and passes through unchanged. -/
def clamp1000 (v : PyFloat) : PyFloat :=
  if PyFloat.lt v (.finite 0) then .finite 0
  else if PyFloat.lt (.finite 1000) v then .finite 1000
  else v

/-- `_parse_xy(arg_str)` (agent.py:102-121): parse arguments, require keys
`x` and `y`, convert both with `float()` (one `except` covers both), clamp
each into `[0, 1000]`. -/
def _parse_xy (env : Env) (arg_str : PyVal) : Except JVal (PyFloat × PyFloat) :=
  match _parse_args env.loads arg_str with
  | .error e => .error e
  | .ok args =>
    if (dGet args "x").isNone || (dGet args "y").isNone then
      .error (_err_payload "invalid_arguments" "missing x or y")
    else
      match pyFloatOf env ((dGet args "x").getD .null),
            pyFloatOf env ((dGet args "y").getD .null) with
      | some x, some y => .ok (clamp1000 x, clamp1000 y)
      | _, _ => .error (_err_payload "invalid_arguments" "x and y must be numbers")

/-- `t.encode("ascii", "ignore").decode("ascii")` (agent.py:131): drop every
character whose code point is above 127, one by one. -/
def encodeAsciiIgnore (s : String) : String :=
  String.mk (s.data.filter (fun c => c.toNat ≤ 127))

/-- `_parse_text(arg_str)` (agent.py:124-132): parse arguments; a missing
`text` key yields `""`; `None` yields `""`; any other value is coerced with
`str()`; the result is filtered to code points 0..127. -/
def _parse_text (env : Env) (arg_str : PyVal) : Except JVal String :=
  match _parse_args env.loads arg_str with
  | .error e => .error e
  | .ok args =>
    match dGet args "text" with
    | none => .ok ""
    | some v =>
      let t := match v with
        | .null => ""
        | w => pyStr w
      .ok (encodeAsciiIgnore t)

/-- The `content` field of a conversation turn:
* `str`  — a plain Python string;
* `parts` — a list (the screenshot user turn's part list);
* `json e` — a Python string holding the JSON serialization of `e` (the form
  of every tool-turn content the driver produces; the serialization is only
  ever undone by `json.loads`, whose round trip is the identity here);
* `pynone` — `None`, or the key being absent (both read back as "no content"
  everywhere the program looks). -/
inductive Content where
  | str (s : String)
  | parts (ps : List JVal)
  | json (e : JVal)
  | pynone

/-- A requested tool invocation (`{id, function: {name, arguments}}`). -/
structure ToolCall where
  id : String
  name : String
  arguments : PyVal

/-- A conversation turn (a Python message dict). -/
structure Message where
  role : String := ""
  content : Content := .pynone
  tool_call_id : Option String := none
  name : Option String := none
  tool_calls : List ToolCall := []

/-- Default for out-of-range list reads (Python would raise; all reads in the
program are in range). -/
def dfltMsg : Message := {}

/-- The part test of the pruner's scan (agent.py:158):
`isinstance(p, dict) and p.get("type") == "image_url"`. -/
def isImagePart (p : JVal) : Bool :=
  match p with
  | .obj l =>
    match dGet l "type" with
    | some (.str t) => t == "image_url"
    | _ => false
  | _ => false

/-- The pruner's image-turn test (agent.py:152-159): a `user` turn whose
content is a list containing an `image_url` part. -/
def isImageUserTurn (m : Message) : Bool :=
  m.role == "user" &&
    (match m.content with
     | .parts ps => ps.any isImagePart
     | _ => false)

/-- Indices of image-bearing user turns, in order (the `idxs` list built at
agent.py:151-159). -/
def imageIdxs (ms : List Message) : List Nat :=
  (List.range ms.length).filter (fun i => isImageUserTurn (ms.getD i dfltMsg))

/-- Python `idxs[:-keep_last]` (agent.py:164).  Note `idxs[:-0] = idxs[:0] = []`:
with `keep_last = 0` the slice is empty and nothing is rewritten. -/
def pyDropLast (l : List Nat) (keep_last : Nat) : List Nat :=
  if keep_last = 0 then [] else l.take (l.length - keep_last)

/-- The content of a preceding turn read back as a JSON object, or `none`
(agent.py:166-172): a string content goes through `json.loads` (decode
failures and non-dict results yield no hint); a serialized envelope reads
back as itself; a list or `None` content raises `TypeError`, which the bare
`except` swallows; an absent key defaults to `"{}"`, whose decoding `{}`
carries no truthy `ok`. -/
def contentObj (loads : String → Except String JVal) : Content → Option (List (String × JVal))
  | .str s =>
    match loads s with
    | .ok (.obj l) => some l
    | _ => none
  | .json (.obj l) => some l
  | _ => none

/-- The file hint computed for a pruned turn at index `i` (agent.py:165-172):
when the immediately preceding turn is a `tool` turn whose content decodes to
a dict with truthy `ok` and truthy `file`, the hint is
`" (omitted; file=<file>)"`, else it is empty. -/
def fileHint (loads : String → Except String JVal) (ms : List Message) (i : Nat) : String :=
  if i = 0 then ""
  else if (ms.getD (i - 1) dfltMsg).role == "tool" then
    match contentObj loads (ms.getD (i - 1) dfltMsg).content with
    | some meta =>
      if truthyO (dGet meta "ok") && truthyO (dGet meta "file") then
        " (omitted; file=" ++ pyStr ((dGet meta "file").getD .null) ++ ")"
      else ""
    | none => ""
  else ""

/-- One iteration of the pruning loop (agent.py:164-173): compute the hint
from the current message list, then overwrite the content of message `i`. -/
def rewriteAt (loads : String → Except String JVal) (acc : List Message) (i : Nat) :
    List Message :=
  acc.set i { acc.getD i dfltMsg with
              content := .str ("captured image data" ++ fileHint loads acc i) }

/-- `_prune_old_screenshots(messages, keep_last)` (agent.py:150-175): find the
image-bearing user turns; if there are at most `keep_last` of them return the
conversation unchanged; otherwise rewrite each one in `idxs[:-keep_last]`
in place. -/
def _prune_old_screenshots (loads : String → Except String JVal)
    (messages : List Message) (keep_last : Nat) : List Message :=
  if (imageIdxs messages).length ≤ keep_last then messages
  else (pyDropLast (imageIdxs messages) keep_last).foldl (rewriteAt loads) messages

/-- The run configuration fields the loop body reads (agent.py:219-231).
`dump_pfx` models `cfg["dump_prefix"]`. -/
structure Cfg where
  target_w : Int := 0
  target_h : Int := 0
  dump_dir : String := ""
  dump_pfx : String := ""
  dump_start : Nat := 0
  keep_last_screenshots : Nat := 0

/-- The OS/filesystem side effects a step performs, in order. -/
inductive OsEffect where
  | capture (w h : Int)
  | writeFile (path data : String)
  | move (x y : PyFloat)
  | click
  | typeText (t : String)
  | scroll
deriving DecidableEq

/-- The loop state threaded between steps (agent.py:235-241). -/
structure AgentState where
  messages : List Message
  dump_idx : Nat
  last_content : String

/-- The outcome of one loop iteration: a successful return, or the next state
together with the OS effects performed. -/
inductive StepOut where
  | done (answer : String)
  | next (st : AgentState) (effects : List OsEffect)

/-- A tool-result turn (`{"role": "tool", "tool_call_id": ..., "name": ...,
"content": ...}`). -/
def toolTurn (call_id nm : String) (c : Content) : Message :=
  { role := "tool", tool_call_id := some call_id, name := some nm, content := c }

/-- `f"{dump_idx:04d}"`: decimal, zero-padded to at least four digits. -/
def fmt04 (n : Nat) : String :=
  let s := toString n
  if s.length < 4 then String.mk (List.replicate (4 - s.length) '0') ++ s else s

/-- `os.path.join(dump_dir, fn)` (separator choice is irrelevant to every
claim). -/
def pathJoin (d f : String) : String := d ++ "/" ++ f

/-- The candidate-final-answer update (agent.py:260-261):
`if isinstance(msg.get("content"), str): last_content = msg["content"]` —
note that the empty string is a `str` and is recorded. -/
def lastOf (st : AgentState) (msg : Message) : String :=
  match msg.content with
  | .str s => s
  | _ => st.last_content

/-- Dispatch of the single honored tool call (agent.py:281-365): the five
known tools and the `unknown_tool` fallback.  Returns the new message list,
the new dump index and the OS effects performed.  `time.sleep` calls are real
time and have no observable effect here. -/
def execTool (env : Env) (cfg : Cfg) (messages : List Message) (dump_idx : Nat)
    (tc : ToolCall) : List Message × Nat × List OsEffect :=
  if tc.name == "take_screenshot" then
    let cap := env.capture dump_idx
    let fn := pathJoin cfg.dump_dir (cfg.dump_pfx ++ fmt04 dump_idx ++ ".png")
    let ms := messages ++
      [toolTurn tc.id tc.name (.json (_ok_payload
          [("file", .str fn),
           ("screen_w", .num (.finite cap.2.1)),
           ("screen_h", .num (.finite cap.2.2))])),
       { role := "user",
         content := .parts
           [.obj [("type", .str "text"), ("text", .str "captured image data")],
            .obj [("type", .str "image_url"),
                  ("image_url", .obj [("url",
                     .str ("data:image/png;base64," ++ env.b64enc cap.1))])]] }]
    let ms := _prune_old_screenshots env.loads ms cfg.keep_last_screenshots
    (ms, dump_idx + 1, [.capture cfg.target_w cfg.target_h, .writeFile fn cap.1])
  else if tc.name == "move_mouse" then
    match _parse_xy env tc.arguments with
    | .error e => (messages ++ [toolTurn tc.id tc.name (.json e)], dump_idx, [])
    | .ok xy =>
      (messages ++ [toolTurn tc.id tc.name (.json (_ok_payload []))], dump_idx,
       [.move xy.1 xy.2])
  else if tc.name == "click_mouse" then
    match _parse_args env.loads tc.arguments with
    | .error e => (messages ++ [toolTurn tc.id tc.name (.json e)], dump_idx, [])
    | .ok _ =>
      (messages ++ [toolTurn tc.id tc.name (.json (_ok_payload []))], dump_idx, [.click])
  else if tc.name == "type_text" then
    match _parse_text env tc.arguments with
    | .error e => (messages ++ [toolTurn tc.id tc.name (.json e)], dump_idx, [])
    | .ok t =>
      (messages ++ [toolTurn tc.id tc.name (.json (_ok_payload []))], dump_idx,
       [.typeText t])
  else if tc.name == "scroll_down" then
    match _parse_args env.loads tc.arguments with
    | .error e => (messages ++ [toolTurn tc.id tc.name (.json e)], dump_idx, [])
    | .ok _ =>
      (messages ++ [toolTurn tc.id tc.name (.json (_ok_payload []))], dump_idx, [.scroll])
  else
    (messages ++ [toolTurn tc.id tc.name (.json (_err_payload "unknown_tool" tc.name))],
     dump_idx, [])

/-- The too-many-tool-calls envelope turn (agent.py:267-278). -/
def tooManyTurn (tc : ToolCall) : Message :=
  toolTurn tc.id tc.name
    (.json (_err_payload "too_many_tool_calls" "only one tool call per response allowed"))

/-- One iteration of the loop body (agent.py:257-367) given the endpoint's
response message `msg`: append it, record string content as the candidate
answer, terminate if there are no tool calls, answer every call after the
first with a `too_many_tool_calls` envelope, and dispatch the first. -/
def runStep (env : Env) (cfg : Cfg) (st : AgentState) (msg : Message) : StepOut :=
  let messages := st.messages ++ [msg]
  let last := lastOf st msg
  match msg.tool_calls with
  | [] => .done last
  | tc :: extras =>
    let messages := messages ++ extras.map tooManyTurn
    let r := execTool env cfg messages st.dump_idx tc
    .next ⟨r.1, r.2.1, last⟩ r.2.2

/-- The driver loop (agent.py:243-369) over a script of endpoint responses.
The script plays the role of `_post_json`'s successive results; its length is
the number of steps the `for` loop gets to run (`max_steps`), and running out
of script models exhausting the step budget (agent.py:369). -/
def runLoop (env : Env) (cfg : Cfg) (script : List Message) (st : AgentState) : String :=
  match script with
  | [] => st.last_content
  | msg :: rest =>
    match runStep env cfg st msg with
    | .done answer => answer
    | .next st' _ => runLoop env cfg rest st'

/-- `run_agent` (agent.py:213-369): initial conversation of a system turn and
a user task turn, initial dump index `dump_start`, empty candidate answer. -/
def run_agent (env : Env) (cfg : Cfg) (system_prompt task_prompt : String)
    (script : List Message) : String :=
  runLoop env cfg script
    ⟨[{ role := "system", content := .str system_prompt },
      { role := "user", content := .str task_prompt }], cfg.dump_start, ""⟩

/-- The message list after one step (projection of `runStep`; a `done` step
leaves the conversation as it was). -/
def stepMessages (env : Env) (cfg : Cfg) (st : AgentState) (msg : Message) :
    List Message :=
  match runStep env cfg st msg with
  | .done _ => st.messages
  | .next st' _ => st'.messages

/-- The OS effects of one step (projection of `runStep`). -/
def stepEffects (env : Env) (cfg : Cfg) (st : AgentState) (msg : Message) :
    List OsEffect :=
  match runStep env cfg st msg with
  | .done _ => []
  | .next _ effs => effs

/-- Recognizer for error envelopes: the `(type, message)` pair of an object
whose `ok` field is `false` and whose `error` field carries string `type` and
`message` fields — the shape `_err_payload` builds. -/
def errInfo (e : JVal) : Option (String × String) :=
  match e with
  | .obj l =>
    match dGet l "ok" with
    | some (.bool false) =>
      match dGet l "error" with
      | some (.obj el) =>
        match dGet el "type", dGet el "message" with
        | some (.str t), some (.str m) => some (t, m)
        | _, _ => none
      | _ => none
    | _ => none
  | _ => none

/-- Error-envelope information carried by a turn's content (only serialized
JSON contents can carry an envelope). -/
def contentErrInfo : Content → Option (String × String)
  | .json e => errInfo e
  | _ => none

/-- Whether a content value is a plain string (used to state that a turn was,
or was not, rewritten by the pruner). -/
def isStrContent : Content → Bool
  | .str _ => true
  | _ => false

/-- Default for out-of-range tool-call list reads. -/
def dfltTc : ToolCall := ⟨"", "", .pynone⟩

/-- Modelled from the amended driver contract (spec §4.4 steps 2-3, corrected
to the code): scanning the endpoint's responses in order, every assistant
turn whose content is a string — including the empty string — overwrites the
candidate answer, and the first turn without tool invocations terminates the
run with the candidate after that update; if the step budget runs out, the
last candidate stands. -/
def answerSpec (acc : String) : List Message → String
  | [] => acc
  | m :: rest =>
    match m.tool_calls with
    | [] =>
      match m.content with
      | .str s => s
      | _ => acc
    | _ :: _ =>
      answerSpec
        (match m.content with
         | .str s => s
         | _ => acc) rest

/-- Printable ASCII (code points 0x20 to 0x7E). -/
def isPrintableAscii (c : Char) : Bool := 32 ≤ c.toNat && c.toNat ≤ 126

/-! Concrete environments used to instantiate theorems.  Each `loads`
function records what Python's `json.loads` returns on the one input the
instance is applied to. -/

/-- A decoder that fails on every input (message is CPython's for bad JSON). -/
def loadsFail : String → Except String JVal := fun _ => .error "Expecting value"

/-- Environment for generic instances: decoding always fails. -/
def envFail : Env :=
  { loads := loadsFail, strFloat := fun _ => none,
    capture := fun i => ("png" ++ toString i, 800, 600), b64enc := fun s => s }

/-- `json.loads` on the text `{"x": NaN, "y": 5.0}`: CPython's `json` module
accepts the non-standard literal `NaN` by default and yields
`{"x": float("nan"), "y": 5.0}`. -/
def loadsNanXY : String → Except String JVal :=
  fun _ => .ok (.obj [("x", .num .nan), ("y", .num (.finite 5))])

/-- Environment whose decoder behaves as `json.loads` does on
`{"x": NaN, "y": 5.0}`. -/
def envNanXY : Env := { envFail with loads := loadsNanXY }

/-- `json.loads` on the text `{"x": true, "y": 2}`. -/
def loadsBoolX : String → Except String JVal :=
  fun _ => .ok (.obj [("x", .bool true), ("y", .num (.finite 2))])

/-- Environment whose decoder behaves as `json.loads` does on
`{"x": true, "y": 2}`. -/
def envBoolX : Env := { envFail with loads := loadsBoolX }

/-- `json.loads` on the text `{"x": -5, "y": 1500}` (the spec's own clamping
example). -/
def loadsClampEx : String → Except String JVal :=
  fun _ => .ok (.obj [("x", .num (.finite (-5))), ("y", .num (.finite 1500))])

/-- Environment for the spec's clamping example. -/
def envClampEx : Env := { envFail with loads := loadsClampEx }

/-- `json.loads` on the text `{"text": "a\tb"}` (a tab is ASCII 9, inside
0..127 but outside the printable range). -/
def loadsTabText : String → Except String JVal :=
  fun _ => .ok (.obj [("text", .str "a\tb")])

/-- Environment for the tab-character text example. -/
def envTabText : Env := { envFail with loads := loadsTabText }

/-- `json.loads` on the text `{"text": "héllo"}` (the spec's own example). -/
def loadsHello : String → Except String JVal :=
  fun _ => .ok (.obj [("text", .str "héllo")])

/-- Environment for the spec's `héllo` example. -/
def envHello : Env := { envFail with loads := loadsHello }

/-- `json.loads` on the empty object text, plus failure elsewhere: the decoder
used to instantiate the `parseArguments` contract. -/
def loadsC7 : String → Except String JVal := fun s =>
  if s = "\x7b\x7d" then .ok (.obj [])
  else if s = "[1, 2]" then .ok (.arr [.num (.finite 1), .num (.finite 2)])
  else .error "Expecting value"

/-- A minimal image-bearing user turn (the shape the driver produces, with
the text part elided — the pruner's scan only looks at the `image_url`
part). -/
def imgTurnA : Message :=
  { role := "user",
    content := .parts [.obj [("type", .str "image_url"),
                             ("image_url", .obj [("url", .str "u")])]] }

/-- A successful-screenshot tool turn preceding an image turn, as the driver
produces it. -/
def shotOkTurn : Message :=
  toolTurn "c0" "take_screenshot"
    (.json (_ok_payload [("file", .str "a.png"), ("screen_w", .num (.finite 800)),
                         ("screen_h", .num (.finite 600))]))

/-! ## Theorems -/

/-- The clamping chain maps every value except `nan` into `[0, 1000]`;
`nan` passes through unchanged because it fails both comparisons. -/
theorem clamp1000_bounds (v : PyFloat) :
    clamp1000 v = .nan ∨
      (PyFloat.le (.finite 0) (clamp1000 v) = true ∧
       PyFloat.le (clamp1000 v) (.finite 1000) = true) := by
  cases v with
  | nan => left; rfl
  | inf => right; exact ⟨rfl, rfl⟩
  | ninf => right; exact ⟨rfl, rfl⟩
  | finite q =>
    right
    simp only [clamp1000, PyFloat.lt]
    by_cases h0 : q < 0
    · simp [h0, PyFloat.le]
    · by_cases h1 : (1000 : ℚ) < q
      · simp [h0, h1, PyFloat.le]
      · simp only [h0, h1, decide_False, if_false, PyFloat.le]
        constructor <;> simp <;> linarith

/-- Only `nan` is fixed by nothing: `clamp1000 v = nan` forces `v = nan`. -/
theorem clamp1000_nan (v : PyFloat) (h : clamp1000 v = .nan) : v = .nan := by
  cases v with
  | nan => rfl
  | inf => simp [clamp1000, PyFloat.lt] at h
  | ninf => simp [clamp1000, PyFloat.lt] at h
  | finite q =>
    simp only [clamp1000, PyFloat.lt] at h
    by_cases h0 : q < 0 <;> by_cases h1 : (1000 : ℚ) < q <;> simp [h0, h1] at h

/-- C3 counterexample: `parseCoordinates` can succeed with a value outside
`[0, 1000]`.  On the raw text `{"x": NaN, "y": 5.0}` — accepted by CPython's
`json.loads`, which allows the non-standard literal `NaN` — `float(nan)` is
`nan`, both clamping comparisons are `False`, and the function returns
`(nan, 5.0)`; `0 <= nan` does not hold. -/
theorem parse_xy_range_counterexample :
    _parse_xy envNanXY (.str "\x7b\"x\": NaN, \"y\": 5.0\x7d") = .ok (.nan, .finite 5) ∧
    PyFloat.le (.finite 0) .nan = false ∧
    PyFloat.le .nan (.finite 1000) = false :=
  ⟨rfl, rfl, rfl⟩

/-- C3 (amended): on every input on which `_parse_xy` succeeds, each returned
coordinate either is `nan` (which the clamping chain passes through, both
comparisons being false) or lies in `[0, 1000]`; out-of-range values are
clamped to the nearest bound, not rejected. -/
theorem parse_xy_range_amended (env : Env) (raw : PyVal) (x y : PyFloat)
    (h : _parse_xy env raw = .ok (x, y)) :
    (x ≠ .nan → PyFloat.le (.finite 0) x = true ∧ PyFloat.le x (.finite 1000) = true) ∧
    (y ≠ .nan → PyFloat.le (.finite 0) y = true ∧ PyFloat.le y (.finite 1000) = true) := by
  unfold _parse_xy at h
  split at h
  · exact absurd h (by simp)
  · split at h
    · exact absurd h (by simp)
    · split at h
      · next a b ha hb =>
          rw [Except.ok.injEq, Prod.mk.injEq] at h
          obtain ⟨rfl, rfl⟩ := h
          constructor <;> intro hne <;>
            [rcases clamp1000_bounds a with hn | hgood;
             rcases clamp1000_bounds b with hn | hgood]
          · exact absurd hn hne
          · exact hgood
          · exact absurd hn hne
          · exact hgood
      · exact absurd h (by simp)

/-- C3 amended witness: the spec's own example `{"x": -5, "y": 1500}` succeeds
with `(0, 1000)`, which satisfies both bounds. -/
theorem parse_xy_range_amended_witness :
    (PyFloat.finite 0 ≠ .nan →
      PyFloat.le (.finite 0) (.finite 0) = true ∧
      PyFloat.le (.finite 0) (.finite 1000) = true) ∧
    (PyFloat.finite 1000 ≠ .nan →
      PyFloat.le (.finite 0) (.finite 1000) = true ∧
      PyFloat.le (.finite 1000) (.finite 1000) = true) :=
  parse_xy_range_amended envClampEx (.str "\x7b\"x\": -5, \"y\": 1500\x7d")
    (.finite 0) (.finite 1000) rfl

/-- C6 counterexample: a non-numeric `x` need not be rejected.  On the raw
text `{"x": true, "y": 2}` the value of `x` is the boolean `True`, not a
number, yet `float(True)` succeeds (Python `bool` is an `int` subtype) and
`_parse_xy` returns `(1.0, 2.0)` instead of the claimed
`invalid_arguments` error. -/
theorem parse_xy_nonnumeric_counterexample :
    _parse_xy envBoolX (.str "\x7b\"x\": true, \"y\": 2\x7d") =
      .ok (.finite 1, .finite 2) :=
  rfl

/-- C6 (amended): given parsed arguments, a missing `x` or `y` key yields the
`invalid_arguments` error "missing x or y"; values on which Python's
`float()` conversion fails (`null`, lists, objects, or strings its
float-literal parser rejects) yield the `invalid_arguments` error
"x and y must be numbers"; but values `float()` converts — numbers, booleans,
and numeric strings — are accepted and clamped, not rejected. -/
theorem parse_xy_errors_amended (env : Env) (raw : PyVal)
    (args : List (String × JVal)) (h : _parse_args env.loads raw = .ok args) :
    ((dGet args "x").isNone = true ∨ (dGet args "y").isNone = true →
      _parse_xy env raw = .error (_err_payload "invalid_arguments" "missing x or y")) ∧
    (∀ vx vy, dGet args "x" = some vx → dGet args "y" = some vy →
      (pyFloatOf env vx = none ∨ pyFloatOf env vy = none) →
      _parse_xy env raw =
        .error (_err_payload "invalid_arguments" "x and y must be numbers")) ∧
    (∀ vx vy a b, dGet args "x" = some vx → dGet args "y" = some vy →
      pyFloatOf env vx = some a → pyFloatOf env vy = some b →
      _parse_xy env raw = .ok (clamp1000 a, clamp1000 b)) := by
  refine ⟨?_, ?_, ?_⟩
  · intro hm
    have hcond : ((dGet args "x").isNone || (dGet args "y").isNone) = true := by
      rcases hm with hm | hm <;> simp [hm]
    simp [_parse_xy, h, hcond]
  · intro vx vy hx hy hn
    have hcond : ((dGet args "x").isNone || (dGet args "y").isNone) = false := by
      simp [hx, hy]
    rcases hn with hn | hn
    · simp only [_parse_xy, h, hcond, Bool.false_eq_true, if_false, hx, hy,
        Option.getD_some, hn]
      cases pyFloatOf env vy <;> rfl
    · simp only [_parse_xy, h, hcond, Bool.false_eq_true, if_false, hx, hy,
        Option.getD_some, hn]
      cases pyFloatOf env vx <;> rfl
  · intro vx vy a b hx hy ha hb
    have hcond : ((dGet args "x").isNone || (dGet args "y").isNone) = false := by
      simp [hx, hy]
    simp [_parse_xy, h, hcond, hx, hy, ha, hb]

/-- C6 amended witness: with decoded arguments `{}`, both keys are missing
and the error is "missing x or y". -/
theorem parse_xy_errors_amended_witness :
    _parse_xy { envFail with loads := fun _ => .ok (.obj []) } (.str "e") =
      .error (_err_payload "invalid_arguments" "missing x or y") :=
  (parse_xy_errors_amended { envFail with loads := fun _ => .ok (.obj []) }
    (.str "e") [] rfl).1 (Or.inl rfl)

/-- C4 counterexample: the filter keeps every code point up to 127, not just
printable ones.  On the raw text `{"text": "a\tb"}` the result still contains
the tab character (code point 9), which is outside the printable ASCII
range. -/
theorem parse_text_printable_counterexample :
    _parse_text envTabText (.str "\x7b\"text\": \"a\tb\"\x7d") = .ok "a\tb" ∧
    "a\tb".data.all isPrintableAscii = false :=
  ⟨rfl, by decide⟩

/-- C4 (amended): every string `_parse_text` returns contains only characters
with code points 0..127 (the ASCII range, printable or not); characters above
127 are dropped one by one by `encode("ascii", "ignore")`, never replaced and
never cause rejection. -/
theorem parse_text_ascii_amended (env : Env) (raw : PyVal) (t : String)
    (h : _parse_text env raw = .ok t) :
    t.data.all (fun c => c.toNat ≤ 127) = true := by
  unfold _parse_text at h
  split at h
  · exact absurd h (by simp)
  · split at h
    · rw [Except.ok.injEq] at h
      subst h
      rfl
    · rw [Except.ok.injEq] at h
      subst h
      simp only [encodeAsciiIgnore, String.data]
      rw [List.all_eq_true]
      intro c hc
      simp only [List.mem_filter] at hc
      simpa using hc.2

/-- C4 amended witness: the spec's own example — `"héllo"` becomes `"hllo"`,
and every character of the result is in the ASCII range. -/
theorem parse_text_ascii_amended_witness :
    "hllo".data.all (fun c => c.toNat ≤ 127) = true :=
  parse_text_ascii_amended envHello (.str "\x7b\"text\": \"héllo\"\x7d") "hllo" rfl

/-- C7: the `_parse_args` contract, for any decoder `loads` that decodes the
two-character text of an empty JSON object to the empty object (as
`json.loads` does): `None` and the empty string yield `{}` with no error; a
non-string value, a string the decoder rejects (the error carrying the
decoder's message), and a string decoding to a non-object each yield an
`invalid_arguments` error; a string decoding to an object is returned as is. -/
theorem parse_args_contract (loads : String → Except String JVal)
    (hbrace : loads "\x7b\x7d" = .ok (.obj [])) :
    _parse_args loads .pynone = .ok [] ∧
    _parse_args loads (.str "") = .ok [] ∧
    _parse_args loads .other =
      .error (_err_payload "invalid_arguments" "arguments must be a JSON string") ∧
    (∀ s m, s ≠ "" → loads s = .error m →
      _parse_args loads (.str s) =
        .error (_err_payload "invalid_arguments" ("JSON decode error: " ++ m))) ∧
    (∀ s v, s ≠ "" → loads s = .ok v → (∀ l, v ≠ .obj l) →
      _parse_args loads (.str s) =
        .error (_err_payload "invalid_arguments" "arguments must decode to an object")) ∧
    (∀ s l, s ≠ "" → loads s = .ok (.obj l) → _parse_args loads (.str s) = .ok l) := by
  refine ⟨?_, rfl, rfl, ?_, ?_, ?_⟩
  · simp [_parse_args, hbrace]
  · intro s m hs hm
    simp [_parse_args, hs, hm]
  · intro s v hs hv hno
    cases v <;> simp [_parse_args, hs, hv]
    · exact absurd rfl (hno _)
  · intro s l hs hl
    simp [_parse_args, hs, hl]

/-- C7 witness: a concrete decoder behaving as `json.loads` does on `"{}"`,
`"[1, 2]"` and `"not json"`: `None` yields `{}`; invalid JSON yields the
decoder's message; an array yields the non-object error. -/
theorem parse_args_contract_witness :
    _parse_args loadsC7 .pynone = .ok [] ∧
    _parse_args loadsC7 (.str "not json") =
      .error (_err_payload "invalid_arguments" "JSON decode error: Expecting value") ∧
    _parse_args loadsC7 (.str "[1, 2]") =
      .error (_err_payload "invalid_arguments" "arguments must decode to an object") := by
  have h := parse_args_contract loadsC7 rfl
  exact ⟨h.1,
         h.2.2.2.1 "not json" "Expecting value" (by decide) rfl,
         h.2.2.2.2.1 "[1, 2]" _ (by decide) rfl (fun l hl => JVal.noConfusion hl)⟩

/-! ### History pruner lemmas -/

/-- `List.getD` after `List.set`, specialized to messages. -/
theorem getD_set_msg (l : List Message) (i j : Nat) (v : Message) :
    (l.set i v).getD j dfltMsg =
      if i = j ∧ i < l.length then v else l.getD j dfltMsg := by
  rw [List.getD_eq_getElem?_getD, List.getD_eq_getElem?_getD, List.getElem?_set]
  by_cases h1 : i = j
  · subst h1
    by_cases h2 : i < l.length
    · simp [h2]
    · rw [if_pos rfl, if_neg h2, if_neg (fun h => h2 h.2)]
      rw [List.getElem?_eq_none (by omega)]
  · rw [if_neg h1, if_neg (fun h => h1 h.1)]

/-- The pruning fold preserves the conversation's length. -/
theorem length_foldl_rewriteAt (loads : String → Except String JVal)
    (L : List Nat) (ms : List Message) :
    (L.foldl (rewriteAt loads) ms).length = ms.length := by
  induction L generalizing ms with
  | nil => rfl
  | cons i L ih =>
    rw [List.foldl_cons, ih]
    simp [rewriteAt]

/-- `fileHint` at `p` only reads the turn at `p - 1`: it is unchanged by any
modification that preserves that turn, or that preserves its role when that
role is not `"tool"`. -/
theorem fileHint_congr (loads : String → Except String JVal)
    (ms ms' : List Message) (p : Nat)
    (h : ms'.getD (p - 1) dfltMsg = ms.getD (p - 1) dfltMsg ∨
         ((ms'.getD (p - 1) dfltMsg).role = (ms.getD (p - 1) dfltMsg).role ∧
          (ms.getD (p - 1) dfltMsg).role ≠ "tool")) :
    fileHint loads ms' p = fileHint loads ms p := by
  rcases h with h | ⟨h1, h2⟩
  · unfold fileHint
    rw [h]
  · by_cases hp : p = 0
    · unfold fileHint
      rw [if_pos hp, if_pos hp]
    · have hb : ((ms.getD (p - 1) dfltMsg).role == "tool") = false :=
        beq_eq_false_iff_ne.mpr h2
      have hb' : ((ms'.getD (p - 1) dfltMsg).role == "tool") = false :=
        beq_eq_false_iff_ne.mpr (h1 ▸ h2)
      unfold fileHint
      rw [if_neg hp, if_neg hp, hb, hb']
      rfl

/-- Pointwise description of the pruning fold: over a duplicate-free list of
indices of `user`-role turns, each listed turn gets its content replaced by
the stub-plus-hint computed from the original conversation, and every other
turn is untouched.  (The hint computed mid-fold from the partially rewritten
list coincides with the hint over the original list: hints only read turns
whose role is `"tool"`, and the fold rewrites only `user`-role turns.) -/
theorem foldl_rewriteAt_getD (loads : String → Except String JVal)
    (L : List Nat) (ms : List Message)
    (hnd : L.Nodup) (huser : ∀ i ∈ L, (ms.getD i dfltMsg).role = "user") (p : Nat) :
    (L.foldl (rewriteAt loads) ms).getD p dfltMsg =
      if p ∈ L then
        { ms.getD p dfltMsg with
          content := .str ("captured image data" ++ fileHint loads ms p) }
      else ms.getD p dfltMsg := by
  induction L generalizing ms with
  | nil => simp
  | cons i L ih =>
    have hiu : (ms.getD i dfltMsg).role = "user" := huser i (by simp)
    have hilen : i < ms.length := by
      by_contra hge
      push_neg at hge
      rw [List.getD_eq_getElem?_getD, List.getElem?_eq_none (by omega)] at hiu
      exact absurd hiu (by decide)
    have hnd' := List.nodup_cons.mp hnd
    have hkey : ∀ q, (rewriteAt loads ms i).getD q dfltMsg =
        if i = q then
          { ms.getD i dfltMsg with
            content := .str ("captured image data" ++ fileHint loads ms i) }
        else ms.getD q dfltMsg := by
      intro q
      rw [rewriteAt, getD_set_msg]
      by_cases hq : i = q
      · rw [if_pos ⟨hq, hilen⟩, if_pos hq]
      · rw [if_neg (fun h => hq h.1), if_neg hq]
    have hhint : ∀ q, fileHint loads (rewriteAt loads ms i) q = fileHint loads ms q := by
      intro q
      apply fileHint_congr
      rw [hkey (q - 1)]
      by_cases hqi : i = q - 1
      · right
        rw [if_pos hqi]
        refine ⟨?_, ?_⟩
        · rw [hqi]
        · rw [← hqi, hiu]
          decide
      · left
        rw [if_neg hqi]
    have huser' : ∀ j ∈ L, ((rewriteAt loads ms i).getD j dfltMsg).role = "user" := by
      intro j hj
      rw [hkey j]
      have hij : ¬(i = j) := fun h => hnd'.1 (h ▸ hj)
      rw [if_neg hij]
      exact huser j (List.mem_cons_of_mem _ hj)
    rw [List.foldl_cons, ih (rewriteAt loads ms i) hnd'.2 huser']
    by_cases hpL : p ∈ L
    · have hpi : ¬(i = p) := fun h => hnd'.1 (h ▸ hpL)
      rw [if_pos hpL, if_pos (List.mem_cons_of_mem i hpL)]
      rw [hkey p, if_neg hpi, hhint p]
    · rw [if_neg hpL, hkey p]
      by_cases hip : i = p
      · rw [if_pos hip,
            if_pos (show p ∈ i :: L by rw [← hip]; exact List.mem_cons_self i L)]
        rw [hip]
      · have hnotc : ¬(p ∈ i :: L) := by
          rw [List.mem_cons]
          push_neg
          exact ⟨fun h => hip h.symm, hpL⟩
        rw [if_neg hip, if_neg hnotc]

/-- Membership in the pruner's index scan. -/
theorem mem_imageIdxs (ms : List Message) (i : Nat) (h : i ∈ imageIdxs ms) :
    i < ms.length ∧ isImageUserTurn (ms.getD i dfltMsg) = true := by
  unfold imageIdxs at h
  rw [List.mem_filter, List.mem_range] at h
  exact h

/-- An image-bearing turn has role `"user"`. -/
theorem isImageUserTurn_role (m : Message) (h : isImageUserTurn m = true) :
    m.role = "user" := by
  unfold isImageUserTurn at h
  simp only [Bool.and_eq_true, beq_iff_eq] at h
  exact h.1

/-- The scan's index list is duplicate-free. -/
theorem imageIdxs_nodup (ms : List Message) : (imageIdxs ms).Nodup :=
  List.Nodup.filter _ (List.nodup_range _)

/-- `idxs[:-keep_last]` is a subset of `idxs`. -/
theorem pyDropLast_mem (l : List Nat) (k : Nat) (i : Nat) (h : i ∈ pyDropLast l k) :
    i ∈ l := by
  unfold pyDropLast at h
  split at h
  · cases h
  · exact List.Sublist.mem h (List.take_sublist _ _)

/-- `idxs[:-keep_last]` is duplicate-free when `idxs` is. -/
theorem pyDropLast_nodup (l : List Nat) (k : Nat) (h : l.Nodup) :
    (pyDropLast l k).Nodup := by
  unfold pyDropLast
  split
  · exact List.nodup_nil
  · exact List.Nodup.sublist (List.take_sublist _ _) h

/-- Every index the pruner rewrites names a `user` turn. -/
theorem pyDropLast_imageIdxs_user (ms : List Message) (k : Nat) :
    ∀ i ∈ pyDropLast (imageIdxs ms) k, (ms.getD i dfltMsg).role = "user" := by
  intro i hi
  exact isImageUserTurn_role _ (mem_imageIdxs ms i (pyDropLast_mem _ _ _ hi)).2

/-- The pruner preserves the conversation's length. -/
theorem prune_length (loads : String → Except String JVal)
    (ms : List Message) (k : Nat) :
    (_prune_old_screenshots loads ms k).length = ms.length := by
  unfold _prune_old_screenshots
  split
  · rfl
  · exact length_foldl_rewriteAt loads _ ms

/-- With retention count `0`, the pruner is the identity: either the early
return fires, or the Python slice `idxs[:-0] = idxs[:0] = []` makes the
rewriting loop empty. -/
theorem prune_zero (loads : String → Except String JVal) (ms : List Message) :
    _prune_old_screenshots loads ms 0 = ms := by
  unfold _prune_old_screenshots
  split
  · rfl
  · rfl

/-- The early return: at most `keep_last` image turns leave the conversation
unchanged. -/
theorem prune_of_le (loads : String → Except String JVal) (ms : List Message)
    (k : Nat) (h : (imageIdxs ms).length ≤ k) :
    _prune_old_screenshots loads ms k = ms := by
  unfold _prune_old_screenshots
  rw [if_pos h]

/-- Pointwise description of the pruner when it rewrites: exactly the turns
at indices in `idxs[:-keep_last]` get the stub-plus-hint content, all other
turns are untouched. -/
theorem prune_getD (loads : String → Except String JVal) (ms : List Message)
    (k : Nat) (hlt : k < (imageIdxs ms).length) (p : Nat) :
    (_prune_old_screenshots loads ms k).getD p dfltMsg =
      if p ∈ pyDropLast (imageIdxs ms) k then
        { ms.getD p dfltMsg with
          content := .str ("captured image data" ++ fileHint loads ms p) }
      else ms.getD p dfltMsg := by
  unfold _prune_old_screenshots
  rw [if_neg (by omega)]
  exact foldl_rewriteAt_getD loads _ ms
    (pyDropLast_nodup _ _ (imageIdxs_nodup ms)) (pyDropLast_imageIdxs_user ms k) p

/-- Filtering away everything in `l.take n` leaves at most `l.length - n`
elements. -/
theorem length_filter_le_sub (l : List Nat) (n : Nat) (p : Nat → Bool)
    (hp : ∀ a ∈ l.take n, p a = false) :
    (l.filter p).length ≤ l.length - n := by
  conv_lhs => rw [← List.take_append_drop n l]
  rw [List.filter_append, List.length_append]
  have h1 : (l.take n).filter p = [] := by
    rw [List.filter_eq_nil_iff]
    intro a ha
    simp [hp a ha]
  rw [h1]
  have h2 := List.length_filter_le p (l.drop n)
  rw [List.length_drop] at h2
  simpa using h2

/-- After a rewriting pass, at most `keep_last` image turns remain: rewritten
turns carry plain-string content and fail the image scan. -/
theorem imageIdxs_prune_length (loads : String → Except String JVal)
    (ms : List Message) (k : Nat) (hk : 0 < k) (hlt : k < (imageIdxs ms).length) :
    (imageIdxs (_prune_old_screenshots loads ms k)).length ≤ k := by
  unfold imageIdxs
  rw [prune_length loads ms k]
  have hcong : ∀ i ∈ List.range ms.length,
      isImageUserTurn ((_prune_old_screenshots loads ms k).getD i dfltMsg) =
        ((!(decide (i ∈ pyDropLast (imageIdxs ms) k))) &&
         isImageUserTurn (ms.getD i dfltMsg)) := by
    intro i _
    by_cases hi : i ∈ pyDropLast (imageIdxs ms) k
    · rw [prune_getD loads ms k hlt i, if_pos hi]
      simp [hi, isImageUserTurn]
    · rw [prune_getD loads ms k hlt i, if_neg hi]
      simp [hi]
  rw [List.filter_congr hcong, ← List.filter_filter]
  have hrwl : (List.range ms.length).filter
      (fun i => isImageUserTurn (ms.getD i dfltMsg)) = imageIdxs ms := rfl
  rw [hrwl]
  have hb := length_filter_le_sub (imageIdxs ms) ((imageIdxs ms).length - k)
    (fun i => !(decide (i ∈ pyDropLast (imageIdxs ms) k)))
    (by
      intro a ha
      have hmem : a ∈ pyDropLast (imageIdxs ms) k := by
        unfold pyDropLast
        rw [if_neg (by omega)]
        exact ha
      simp [hmem])
  omega

/-- C2 counterexample: with `keepLast = 0` and one image-bearing turn, the
claim requires the (only, hence oldest) image turn to be rewritten, but the
code's slice `idxs[:-0] = idxs[:0] = []` rewrites nothing: the conversation
comes back unchanged, its image turn still list-shaped rather than a text
stub. -/
theorem prune_keepzero_counterexample :
    _prune_old_screenshots loadsFail [imgTurnA] 0 = [imgTurnA] ∧
    isStrContent imgTurnA.content = false :=
  ⟨rfl, rfl⟩

/-- C2 (amended): with at most `keepLast` image turns the conversation is
unchanged; with `keepLast = 0` it is also unchanged (nothing is rewritten);
otherwise length is preserved, exactly the image turns in
`idxs[:-keepLast]` — every image-bearing user turn except the most recent
`keepLast` — get content `"captured image data"` plus the `fileHint` suffix
(present exactly when the preceding turn is a tool turn whose envelope has
truthy `ok` and truthy `file`), and all other turns are untouched; with
`keepLast + 1` image turns (`keepLast ≥ 1`) exactly the oldest is
rewritten. -/
theorem prune_characterization (loads : String → Except String JVal)
    (ms : List Message) (k : Nat) :
    ((imageIdxs ms).length ≤ k → _prune_old_screenshots loads ms k = ms) ∧
    (k = 0 → _prune_old_screenshots loads ms k = ms) ∧
    (_prune_old_screenshots loads ms k).length = ms.length ∧
    (k < (imageIdxs ms).length →
      ∀ p, (p ∈ pyDropLast (imageIdxs ms) k →
              (_prune_old_screenshots loads ms k).getD p dfltMsg =
                { ms.getD p dfltMsg with
                  content := .str ("captured image data" ++ fileHint loads ms p) }) ∧
           (p ∉ pyDropLast (imageIdxs ms) k →
              (_prune_old_screenshots loads ms k).getD p dfltMsg = ms.getD p dfltMsg)) ∧
    ((imageIdxs ms).length = k + 1 → 0 < k →
      pyDropLast (imageIdxs ms) k = (imageIdxs ms).take 1) := by
  refine ⟨prune_of_le loads ms k, ?_, prune_length loads ms k, ?_, ?_⟩
  · intro h
    subst h
    exact prune_zero loads ms
  · intro hlt p
    rw [prune_getD loads ms k hlt p]
    constructor
    · intro hp
      rw [if_pos hp]
    · intro hp
      rw [if_neg hp]
  · intro hlen hk
    unfold pyDropLast
    rw [if_neg (by omega), hlen]
    have h1 : k + 1 - k = 1 := by omega
    rw [h1]

/-- C2 amended witness: a successful-screenshot tool turn followed by two
image turns, `keepLast = 1`: the older image turn (index 1) is rewritten to
the stub carrying the file hint, the newest (index 2) is untouched. -/
theorem prune_characterization_witness :
    (_prune_old_screenshots loadsFail [shotOkTurn, imgTurnA, imgTurnA] 1).getD 1 dfltMsg =
      { imgTurnA with content := .str "captured image data (omitted; file=a.png)" } ∧
    (_prune_old_screenshots loadsFail [shotOkTurn, imgTurnA, imgTurnA] 1).getD 2 dfltMsg =
      imgTurnA := by
  have h := (prune_characterization loadsFail [shotOkTurn, imgTurnA, imgTurnA] 1).2.2.2.1
    (by decide)
  exact ⟨(h 1).1 (by decide), (h 2).2 (by decide)⟩

/-- C9: the pruner is idempotent: a second application with the same
retention count changes nothing, because a rewritten turn carries plain text
content and is never selected again by the image-turn scan. -/
theorem prune_idempotent (loads : String → Except String JVal)
    (ms : List Message) (k : Nat) :
    _prune_old_screenshots loads (_prune_old_screenshots loads ms k) k =
      _prune_old_screenshots loads ms k := by
  by_cases hle : (imageIdxs ms).length ≤ k
  · rw [prune_of_le loads ms k hle]
    exact prune_of_le loads ms k hle
  · rcases Nat.eq_zero_or_pos k with hk0 | hkpos
    · subst hk0
      rw [prune_zero loads ms]
      exact prune_zero loads ms
    · exact prune_of_le loads _ k
        (imageIdxs_prune_length loads ms k hkpos (by omega))

/-! ### Driver lemmas -/

/-- `getD` on the left part of an append. -/
theorem getD_append_left_msg (l1 l2 : List Message) (p : Nat) (hp : p < l1.length) :
    (l1 ++ l2).getD p dfltMsg = l1.getD p dfltMsg := by
  rw [List.getD_eq_getElem?_getD, List.getD_eq_getElem?_getD,
      List.getElem?_append_left hp]

/-- `getD` on the right part of an append. -/
theorem getD_append_right_ge (l1 l2 : List Message) (p : Nat) (hp : l1.length ≤ p) :
    (l1 ++ l2).getD p dfltMsg = l2.getD (p - l1.length) dfltMsg := by
  rw [List.getD_eq_getElem?_getD, List.getD_eq_getElem?_getD,
      List.getElem?_append_right hp]

/-- `getD` after appending a single turn. -/
theorem getD_append_one (ms : List Message) (turn : Message) (p : Nat) :
    (ms ++ [turn]).getD p dfltMsg =
      if p < ms.length then ms.getD p dfltMsg
      else if p = ms.length then turn else dfltMsg := by
  by_cases h1 : p < ms.length
  · rw [if_pos h1, getD_append_left_msg _ _ p h1]
  · rw [if_neg h1, getD_append_right_ge _ _ p (by omega)]
    by_cases h2 : p = ms.length
    · rw [if_pos h2, h2, Nat.sub_self]
      rfl
    · rw [if_neg h2]
      have h3 : p - ms.length = (p - ms.length - 1) + 1 := by omega
      rw [h3]
      rfl

/-- `getD` into the mapped too-many-tool-calls turns. -/
theorem getD_map_tooMany (extras : List ToolCall) (j : Nat) (hj : j < extras.length) :
    (extras.map tooManyTurn).getD j dfltMsg = tooManyTurn (extras.getD j dfltTc) := by
  rw [List.getD_eq_getElem?_getD, List.getD_eq_getElem?_getD, List.getElem?_map,
      List.getElem?_eq_getElem hj]
  rfl

/-- The pruner never touches a turn whose role is not `"user"`. -/
theorem prune_getD_non_user (loads : String → Except String JVal)
    (ms : List Message) (k : Nat) (p : Nat)
    (h : (ms.getD p dfltMsg).role ≠ "user") :
    (_prune_old_screenshots loads ms k).getD p dfltMsg = ms.getD p dfltMsg := by
  by_cases hle : (imageIdxs ms).length ≤ k
  · rw [prune_of_le loads ms k hle]
  · rw [prune_getD loads ms k (by omega) p,
        if_neg (fun hp => h (pyDropLast_imageIdxs_user ms k p hp))]

/-- Each turn of the pruner's output is the original turn or has plain-string
content. -/
theorem prune_getD_cases (loads : String → Except String JVal)
    (ms : List Message) (k : Nat) (p : Nat) :
    (_prune_old_screenshots loads ms k).getD p dfltMsg = ms.getD p dfltMsg ∨
    isStrContent ((_prune_old_screenshots loads ms k).getD p dfltMsg).content = true := by
  by_cases hle : (imageIdxs ms).length ≤ k
  · left
    rw [prune_of_le loads ms k hle]
  · rw [prune_getD loads ms k (by omega) p]
    by_cases hp : p ∈ pyDropLast (imageIdxs ms) k
    · right
      rw [if_pos hp]
      rfl
    · left
      rw [if_neg hp]

/-- Plain-string content carries no error envelope. -/
theorem contentErrInfo_of_str (c : Content) (h : isStrContent c = true) :
    contentErrInfo c = none := by
  cases c <;> first | rfl | cases h

/-- After a `next` step the candidate answer is the `lastOf` update. -/
theorem runStep_next_last (env : Env) (cfg : Cfg) (st : AgentState) (msg : Message)
    (st' : AgentState) (effs : List OsEffect)
    (h : runStep env cfg st msg = .next st' effs) :
    st'.last_content = lastOf st msg := by
  simp only [runStep] at h
  split at h
  · cases h
  · rw [StepOut.next.injEq] at h
    rw [← h.1]

/-- The driver's answer is exactly the spec-side scan of the response script:
string content (empty included) overwrites the candidate, the first response
without tool calls returns the updated candidate, an exhausted script returns
the standing candidate. -/
theorem runLoop_answerSpec (env : Env) (cfg : Cfg) (script : List Message)
    (st : AgentState) :
    runLoop env cfg script st = answerSpec st.last_content script := by
  induction script generalizing st with
  | nil => rfl
  | cons msg rest ih =>
    simp only [runLoop, answerSpec]
    cases htc : msg.tool_calls with
    | nil => simp only [runStep, htc, lastOf]
    | cons tc extras =>
      simp only [runStep, htc]
      rw [ih]
      rfl

/-- C5 counterexample: an assistant turn with empty string content overwrites
an earlier non-empty candidate.  The script produces `"hello"` (with a tool
call), then terminates with content `""`: the run returns `""`, although the
claim requires `"hello"` (the empty string being allowed only when no
non-empty content was ever produced). -/
theorem run_agent_empty_overwrite_counterexample :
    run_agent envFail {} "sys" "task"
      [{ role := "assistant", content := .str "hello",
         tool_calls := [⟨"a", "bogus_tool", .pynone⟩] },
       { role := "assistant", content := .str "" }] = "" :=
  rfl

/-- C5 (amended): the driver records an assistant turn's content as the
candidate answer whenever that content is a string — the empty string
included, overwriting any earlier candidate — and on a response with no tool
invocations terminates returning the candidate after that update; the answer
is exactly `answerSpec` applied to the response script, for every
environment, configuration and prompts. -/
theorem run_agent_answer (env : Env) (cfg : Cfg) (system_prompt task_prompt : String)
    (script : List Message) :
    run_agent env cfg system_prompt task_prompt script = answerSpec "" script :=
  runLoop_answerSpec env cfg script _

/-- Dispatch of `click_mouse` reduced to the argument-parse outcome. -/
theorem execTool_click (env : Env) (cfg : Cfg) (ms : List Message) (di : Nat)
    (tc : ToolCall) (hn : tc.name = "click_mouse") :
    execTool env cfg ms di tc =
      match _parse_args env.loads tc.arguments with
      | .error e => (ms ++ [toolTurn tc.id tc.name (.json e)], di, [])
      | .ok _ =>
        (ms ++ [toolTurn tc.id tc.name (.json (_ok_payload []))], di, [.click]) := by
  unfold execTool
  rw [hn]
  rfl

/-- Dispatch of `scroll_down` reduced to the argument-parse outcome. -/
theorem execTool_scroll (env : Env) (cfg : Cfg) (ms : List Message) (di : Nat)
    (tc : ToolCall) (hn : tc.name = "scroll_down") :
    execTool env cfg ms di tc =
      match _parse_args env.loads tc.arguments with
      | .error e => (ms ++ [toolTurn tc.id tc.name (.json e)], di, [])
      | .ok _ =>
        (ms ++ [toolTurn tc.id tc.name (.json (_ok_payload []))], di, [.scroll]) := by
  unfold execTool
  rw [hn]
  rfl

/-- One step on a single tool call, written out. -/
theorem runStep_single (env : Env) (cfg : Cfg) (st : AgentState) (msg : Message)
    (tc : ToolCall) (h1 : msg.tool_calls = [tc]) :
    runStep env cfg st msg =
      .next ⟨(execTool env cfg (st.messages ++ [msg]) st.dump_idx tc).1,
             (execTool env cfg (st.messages ++ [msg]) st.dump_idx tc).2.1,
             lastOf st msg⟩
        (execTool env cfg (st.messages ++ [msg]) st.dump_idx tc).2.2 := by
  simp only [runStep, h1, List.map_nil, List.append_nil]

/-- C10: for the no-argument tools `click_mouse` and `scroll_down`, the raw
argument string still goes through argument parsing: a parse failure makes
the error envelope the tool turn's content and invokes no OS primitive; a
parse success appends a success envelope and invokes exactly the click
(resp. scroll) primitive. -/
theorem noarg_tools_parse (env : Env) (cfg : Cfg) (st : AgentState) (msg : Message)
    (tc : ToolCall) (h1 : msg.tool_calls = [tc])
    (h2 : tc.name = "click_mouse" ∨ tc.name = "scroll_down") :
    (∀ e, _parse_args env.loads tc.arguments = .error e →
      runStep env cfg st msg =
        .next ⟨st.messages ++ [msg] ++ [toolTurn tc.id tc.name (.json e)],
               st.dump_idx, lastOf st msg⟩ []) ∧
    (∀ v, _parse_args env.loads tc.arguments = .ok v →
      runStep env cfg st msg =
        .next ⟨st.messages ++ [msg] ++ [toolTurn tc.id tc.name (.json (_ok_payload []))],
               st.dump_idx, lastOf st msg⟩
          [if tc.name = "click_mouse" then .click else .scroll]) := by
  rcases h2 with hn | hn
  · constructor
    · intro e he
      rw [runStep_single env cfg st msg tc h1, execTool_click env cfg _ _ tc hn, he]
    · intro v hv
      rw [runStep_single env cfg st msg tc h1, execTool_click env cfg _ _ tc hn, hv,
          if_pos hn]
  · constructor
    · intro e he
      rw [runStep_single env cfg st msg tc h1, execTool_scroll env cfg _ _ tc hn, he]
    · intro v hv
      rw [runStep_single env cfg st msg tc h1, execTool_scroll env cfg _ _ tc hn, hv,
          if_neg (by rw [hn]; decide)]

/-- C10 witness: `click_mouse` with the unparsable argument string
`"not json"` yields the decode-error envelope and no OS effect. -/
theorem noarg_tools_parse_witness :
    runStep envFail {} ⟨[], 0, ""⟩
      { role := "assistant", tool_calls := [⟨"id1", "click_mouse", .str "not json"⟩] } =
      .next ⟨[{ role := "assistant",
                tool_calls := [⟨"id1", "click_mouse", .str "not json"⟩] },
              toolTurn "id1" "click_mouse"
                (.json (_err_payload "invalid_arguments"
                  "JSON decode error: Expecting value"))],
             0, ""⟩ [] :=
  (noarg_tools_parse envFail {} ⟨[], 0, ""⟩
      { role := "assistant", tool_calls := [⟨"id1", "click_mouse", .str "not json"⟩] }
      ⟨"id1", "click_mouse", .str "not json"⟩ rfl (Or.inl rfl)).1
    (_err_payload "invalid_arguments" "JSON decode error: Expecting value") rfl

/-- The OS effects of a dispatch do not depend on the conversation so far. -/
theorem execTool_effects_indep (env : Env) (cfg : Cfg) (ms1 ms2 : List Message)
    (di : Nat) (tc : ToolCall) :
    (execTool env cfg ms1 di tc).2.2 = (execTool env cfg ms2 di tc).2.2 := by
  unfold execTool
  split_ifs
  · rfl
  · cases hx : _parse_xy env tc.arguments <;> rfl
  · cases hx : _parse_args env.loads tc.arguments <;> rfl
  · cases hx : _parse_text env tc.arguments <;> rfl
  · cases hx : _parse_args env.loads tc.arguments <;> rfl
  · rfl

/-- A dispatch never modifies a turn whose role is not `"user"`: appended
turns sit past the old length, and the screenshot branch's pruning pass only
rewrites `user` turns. -/
theorem execTool_getD_preserved (env : Env) (cfg : Cfg) (ms : List Message)
    (di : Nat) (tc : ToolCall) (p : Nat) (hp : p < ms.length)
    (hrole : (ms.getD p dfltMsg).role ≠ "user") :
    (execTool env cfg ms di tc).1.getD p dfltMsg = ms.getD p dfltMsg := by
  simp only [execTool]
  split_ifs
  · rw [prune_getD_non_user env.loads _ cfg.keep_last_screenshots p
        (by rw [getD_append_left_msg _ _ p hp]; exact hrole),
        getD_append_left_msg _ _ p hp]
  · cases hx : _parse_xy env tc.arguments <;>
      exact getD_append_left_msg _ _ p hp
  · cases hx : _parse_args env.loads tc.arguments <;>
      exact getD_append_left_msg _ _ p hp
  · cases hx : _parse_text env tc.arguments <;>
      exact getD_append_left_msg _ _ p hp
  · cases hx : _parse_args env.loads tc.arguments <;>
      exact getD_append_left_msg _ _ p hp
  · exact getD_append_left_msg _ _ p hp

/-- C1: on an assistant response with more than one tool invocation the
driver executes exactly the first — its OS effects equal those of the same
response carrying only the first call — and answers each of the other
invocations with a tool turn holding a `too_many_tool_calls` error envelope
keyed to that invocation's own call identifier, at consecutive positions
after the assistant turn. -/
theorem single_tool_call_enforcement (env : Env) (cfg : Cfg) (st : AgentState)
    (msg : Message) (tc : ToolCall) (extras : List ToolCall)
    (h : msg.tool_calls = tc :: extras) (hne : extras ≠ []) :
    stepEffects env cfg st msg =
      stepEffects env cfg st { msg with tool_calls := [tc] } ∧
    ∀ j, j < extras.length →
      (stepMessages env cfg st msg).getD (st.messages.length + 1 + j) dfltMsg =
        toolTurn (extras.getD j dfltTc).id (extras.getD j dfltTc).name
          (.json (_err_payload "too_many_tool_calls"
            "only one tool call per response allowed")) := by
  have hstepM : stepMessages env cfg st msg =
      (execTool env cfg ((st.messages ++ [msg]) ++ extras.map tooManyTurn)
        st.dump_idx tc).1 := by
    unfold stepMessages
    simp only [runStep, h]
  have hstepE : stepEffects env cfg st msg =
      (execTool env cfg ((st.messages ++ [msg]) ++ extras.map tooManyTurn)
        st.dump_idx tc).2.2 := by
    unfold stepEffects
    simp only [runStep, h]
  have hstepE1 : stepEffects env cfg st { msg with tool_calls := [tc] } =
      (execTool env cfg ((st.messages ++ [{ msg with tool_calls := [tc] }]) ++ [])
        st.dump_idx tc).2.2 := by
    unfold stepEffects
    simp only [runStep, List.map_nil]
  constructor
  · rw [hstepE, hstepE1]
    exact execTool_effects_indep env cfg _ _ st.dump_idx tc
  · intro j hj
    have hMpos : (((st.messages ++ [msg]) ++ extras.map tooManyTurn).getD
        (st.messages.length + 1 + j) dfltMsg) = tooManyTurn (extras.getD j dfltTc) := by
      have hidx : st.messages.length + 1 + j = (st.messages ++ [msg]).length + j := by
        simp [List.length_append]
      rw [hidx, getD_append_right_ge _ _ _ (by omega), Nat.add_sub_cancel_left,
          getD_map_tooMany extras j hj]
    have hrole : ((((st.messages ++ [msg]) ++ extras.map tooManyTurn).getD
        (st.messages.length + 1 + j) dfltMsg)).role ≠ "user" := by
      rw [hMpos]
      intro hcon
      have hcon2 : ("tool" : String) = "user" := hcon
      exact absurd hcon2 (by decide)
    have hlen : st.messages.length + 1 + j <
        ((st.messages ++ [msg]) ++ extras.map tooManyTurn).length := by
      simp only [List.length_append, List.length_map, List.length_cons,
        List.length_nil]
      omega
    rw [hstepM, execTool_getD_preserved env cfg _ st.dump_idx tc _ hlen hrole, hMpos]
    rfl

/-- C1 witness: a response with two tool calls — the effects equal those of
the single-call response, and position 1 of the new conversation answers the
second call's identifier `"b"` with the `too_many_tool_calls` envelope. -/
theorem single_tool_call_enforcement_witness :
    stepEffects envFail {} ⟨[], 0, ""⟩
        { role := "assistant",
          tool_calls := [⟨"a", "t1", .pynone⟩, ⟨"b", "t2", .pynone⟩] } =
      stepEffects envFail {} ⟨[], 0, ""⟩
        { role := "assistant", tool_calls := [⟨"a", "t1", .pynone⟩] } ∧
    (stepMessages envFail {} ⟨[], 0, ""⟩
        { role := "assistant",
          tool_calls := [⟨"a", "t1", .pynone⟩, ⟨"b", "t2", .pynone⟩] }).getD 1 dfltMsg =
      toolTurn "b" "t2"
        (.json (_err_payload "too_many_tool_calls"
          "only one tool call per response allowed")) := by
  have h := single_tool_call_enforcement envFail {} ⟨[], 0, ""⟩
    { role := "assistant",
      tool_calls := [⟨"a", "t1", .pynone⟩, ⟨"b", "t2", .pynone⟩] }
    ⟨"a", "t1", .pynone⟩ [⟨"b", "t2", .pynone⟩] rfl (List.cons_ne_nil _ _)
  exact ⟨h.1, h.2 0 (by decide)⟩

/-! ### Error-envelope lemmas -/

/-- The decode-error message always carries its non-empty prefix. -/
theorem decode_msg_ne_empty (m : String) : ("JSON decode error: " ++ m) ≠ "" := by
  intro hcon
  have hl := congrArg String.length hcon
  rw [String.length_append] at hl
  rw [show ("JSON decode error: ").length = 19 from rfl,
      show ("" : String).length = 0 from rfl] at hl
  omega

/-- Every error `_parse_args` returns is an `invalid_arguments` envelope with
a non-empty message. -/
theorem parse_args_error_info (loads : String → Except String JVal) (raw : PyVal)
    (e : JVal) (h : _parse_args loads raw = .error e) :
    ∃ m, errInfo e = some ("invalid_arguments", m) ∧ m ≠ "" := by
  have hgen : ∀ s : String, (match loads s with
      | .error m =>
        (Except.error (_err_payload "invalid_arguments" ("JSON decode error: " ++ m)) :
          Except JVal (List (String × JVal)))
      | .ok (.obj l) => .ok l
      | .ok _ =>
        .error (_err_payload "invalid_arguments" "arguments must decode to an object")) =
        .error e →
      ∃ m, errInfo e = some ("invalid_arguments", m) ∧ m ≠ "" := by
    intro s hs
    cases hl : loads s with
    | error m =>
      rw [hl, Except.error.injEq] at hs
      exact ⟨"JSON decode error: " ++ m, by rw [← hs]; rfl, decode_msg_ne_empty m⟩
    | ok v =>
      rw [hl] at hs
      cases v
      case obj l => cases hs
      all_goals
        rw [Except.error.injEq] at hs
        exact ⟨"arguments must decode to an object", by rw [← hs]; rfl, by decide⟩
  cases raw with
  | pynone =>
    simp only [_parse_args] at h
    rw [if_neg (show ¬("\x7b\x7d" : String) = "" from by decide)] at h
    exact hgen _ h
  | str s =>
    simp only [_parse_args] at h
    by_cases hs : s = ""
    · rw [if_pos hs] at h
      cases h
    · rw [if_neg hs] at h
      exact hgen s h
  | other =>
    simp only [_parse_args] at h
    rw [Except.error.injEq] at h
    exact ⟨"arguments must be a JSON string", by rw [← h]; rfl, by decide⟩

/-- Every error `_parse_xy` returns is an `invalid_arguments` envelope with a
non-empty message. -/
theorem parse_xy_error_info (env : Env) (raw : PyVal) (e : JVal)
    (h : _parse_xy env raw = .error e) :
    ∃ m, errInfo e = some ("invalid_arguments", m) ∧ m ≠ "" := by
  unfold _parse_xy at h
  cases hp : _parse_args env.loads raw with
  | error e2 =>
    simp only [hp] at h
    rw [Except.error.injEq] at h
    exact h ▸ parse_args_error_info env.loads raw e2 hp
  | ok args =>
    simp only [hp] at h
    by_cases hm : ((dGet args "x").isNone || (dGet args "y").isNone) = true
    · rw [if_pos hm, Except.error.injEq] at h
      exact ⟨"missing x or y", by rw [← h]; rfl, by decide⟩
    · rw [if_neg hm] at h
      split at h
      · cases h
      · rw [Except.error.injEq] at h
        exact ⟨"x and y must be numbers", by rw [← h]; rfl, by decide⟩

/-- Every error `_parse_text` returns is an `invalid_arguments` envelope with
a non-empty message. -/
theorem parse_text_error_info (env : Env) (raw : PyVal) (e : JVal)
    (h : _parse_text env raw = .error e) :
    ∃ m, errInfo e = some ("invalid_arguments", m) ∧ m ≠ "" := by
  unfold _parse_text at h
  cases hp : _parse_args env.loads raw with
  | error e2 =>
    simp only [hp] at h
    rw [Except.error.injEq] at h
    exact h ▸ parse_args_error_info env.loads raw e2 hp
  | ok args =>
    simp only [hp] at h
    split at h <;> cases h

/-- An `invalid_arguments` envelope satisfies the (amended) invariant. -/
theorem invalid_args_envelope_err (e : JVal) (t m m2 : String)
    (hinfo : errInfo e = some ("invalid_arguments", m2)) (hne2 : m2 ≠ "")
    (h : errInfo e = some (t, m)) :
    t ≠ "" ∧ (m = "" → t = "unknown_tool") := by
  rw [hinfo, Option.some.injEq, Prod.mk.injEq] at h
  obtain ⟨ht, hm⟩ := h
  exact ⟨by rw [← ht]; decide, fun h0 => (hne2 (hm.trans h0)).elim⟩

/-- Envelope analysis through an appended turn: the invariant holds if it
holds for the old conversation and for the new turn. -/
theorem getD_append_one_err (ms : List Message) (turn : Message) (p : Nat)
    (t m : String)
    (hsrc : contentErrInfo ((ms.getD p dfltMsg).content) = some (t, m) →
      t ≠ "" ∧ (m = "" → t = "unknown_tool"))
    (hturn : contentErrInfo turn.content = some (t, m) →
      t ≠ "" ∧ (m = "" → t = "unknown_tool"))
    (h : contentErrInfo (((ms ++ [turn]).getD p dfltMsg).content) = some (t, m)) :
    t ≠ "" ∧ (m = "" → t = "unknown_tool") := by
  rw [getD_append_one] at h
  by_cases hp1 : p < ms.length
  · rw [if_pos hp1] at h
    exact hsrc h
  · rw [if_neg hp1] at h
    by_cases hp2 : p = ms.length
    · rw [if_pos hp2] at h
      exact hturn h
    · rw [if_neg hp2] at h
      exact Option.noConfusion h

/-- `getD` after appending two turns. -/
theorem getD_append_two (ms : List Message) (t1 t2 : Message) (p : Nat) :
    (ms ++ [t1, t2]).getD p dfltMsg =
      if p < ms.length then ms.getD p dfltMsg
      else if p = ms.length then t1
      else if p = ms.length + 1 then t2 else dfltMsg := by
  by_cases h1 : p < ms.length
  · rw [if_pos h1, getD_append_left_msg _ _ p h1]
  · rw [if_neg h1, getD_append_right_ge _ _ p (by omega)]
    by_cases h2 : p = ms.length
    · rw [if_pos h2, h2, Nat.sub_self]
      rfl
    · rw [if_neg h2]
      by_cases h3 : p = ms.length + 1
      · rw [if_pos h3, h3, show ms.length + 1 - ms.length = 1 by omega]
        rfl
      · rw [if_neg h3, show p - ms.length = (p - ms.length - 2) + 2 by omega]
        rfl

/-- Envelope analysis through the pruner: its output turns are original or
plain-string (envelope-free). -/
theorem screenshot_getD_err (loads : String → Except String JVal)
    (ms2 : List Message) (k : Nat) (p : Nat) (t m : String)
    (hsrc2 : contentErrInfo ((ms2.getD p dfltMsg).content) = some (t, m) →
      t ≠ "" ∧ (m = "" → t = "unknown_tool"))
    (h : contentErrInfo
        (((_prune_old_screenshots loads ms2 k).getD p dfltMsg).content) = some (t, m)) :
    t ≠ "" ∧ (m = "" → t = "unknown_tool") := by
  rcases prune_getD_cases loads ms2 k p with hc | hc
  · rw [hc] at h
    exact hsrc2 h
  · rw [contentErrInfo_of_str _ hc] at h
    exact Option.noConfusion h

/-- Envelope analysis of one dispatch: every turn of the output either comes
from the input conversation or is one of the known appended/rewritten turns,
and the appended envelopes all satisfy the (amended) invariant. -/
theorem execTool_getD_err (env : Env) (cfg : Cfg) (ms : List Message) (di : Nat)
    (tc : ToolCall) (p : Nat) (t m : String)
    (hsrc : contentErrInfo ((ms.getD p dfltMsg).content) = some (t, m) →
      t ≠ "" ∧ (m = "" → t = "unknown_tool"))
    (h : contentErrInfo (((execTool env cfg ms di tc).1.getD p dfltMsg).content) =
      some (t, m)) :
    t ≠ "" ∧ (m = "" → t = "unknown_tool") := by
  simp only [execTool] at h
  split_ifs at h
  · refine screenshot_getD_err env.loads _ cfg.keep_last_screenshots p t m ?_ h
    intro h2
    rw [getD_append_two] at h2
    by_cases hp1 : p < ms.length
    · rw [if_pos hp1] at h2
      exact hsrc h2
    · rw [if_neg hp1] at h2
      by_cases hp2 : p = ms.length
      · rw [if_pos hp2] at h2
        exact Option.noConfusion h2
      · rw [if_neg hp2] at h2
        by_cases hp3 : p = ms.length + 1
        · rw [if_pos hp3] at h2
          exact Option.noConfusion h2
        · rw [if_neg hp3] at h2
          exact Option.noConfusion h2
  · cases hx : _parse_xy env tc.arguments with
    | error e =>
      simp only [hx] at h
      obtain ⟨m2, hinfo, hne2⟩ := parse_xy_error_info env tc.arguments e hx
      refine getD_append_one_err ms _ p t m hsrc ?_ h
      intro h0
      exact invalid_args_envelope_err e t m m2 hinfo hne2 h0
    | ok v =>
      simp only [hx] at h
      refine getD_append_one_err ms _ p t m hsrc ?_ h
      intro h0
      exact Option.noConfusion h0
  · cases hx : _parse_args env.loads tc.arguments with
    | error e =>
      simp only [hx] at h
      obtain ⟨m2, hinfo, hne2⟩ := parse_args_error_info env.loads tc.arguments e hx
      refine getD_append_one_err ms _ p t m hsrc ?_ h
      intro h0
      exact invalid_args_envelope_err e t m m2 hinfo hne2 h0
    | ok v =>
      simp only [hx] at h
      refine getD_append_one_err ms _ p t m hsrc ?_ h
      intro h0
      exact Option.noConfusion h0
  · cases hx : _parse_text env tc.arguments with
    | error e =>
      simp only [hx] at h
      obtain ⟨m2, hinfo, hne2⟩ := parse_text_error_info env tc.arguments e hx
      refine getD_append_one_err ms _ p t m hsrc ?_ h
      intro h0
      exact invalid_args_envelope_err e t m m2 hinfo hne2 h0
    | ok v =>
      simp only [hx] at h
      refine getD_append_one_err ms _ p t m hsrc ?_ h
      intro h0
      exact Option.noConfusion h0
  · cases hx : _parse_args env.loads tc.arguments with
    | error e =>
      simp only [hx] at h
      obtain ⟨m2, hinfo, hne2⟩ := parse_args_error_info env.loads tc.arguments e hx
      refine getD_append_one_err ms _ p t m hsrc ?_ h
      intro h0
      exact invalid_args_envelope_err e t m m2 hinfo hne2 h0
    | ok v =>
      simp only [hx] at h
      refine getD_append_one_err ms _ p t m hsrc ?_ h
      intro h0
      exact Option.noConfusion h0
  · refine getD_append_one_err ms _ p t m hsrc ?_ h
    intro h0
    have h1 : (some ("unknown_tool", tc.name) : Option (String × String)) = some (t, m) := h0
    rw [Option.some.injEq, Prod.mk.injEq] at h1
    obtain ⟨ht, hm⟩ := h1
    exact ⟨by rw [← ht]; decide, fun _ => ht.symm⟩

/-- C8 counterexample: the `unknown_tool` envelope's message is the requested
tool name, which the endpoint may supply empty: dispatching a tool call named
`""` appends an `ok=false` envelope whose message is empty. -/
theorem err_envelope_empty_counterexample :
    contentErrInfo
      (((stepMessages envFail {} ⟨[], 0, ""⟩
          { role := "assistant",
            tool_calls := [⟨"c1", "", .pynone⟩] }).getD 1 dfltMsg).content) =
      some ("unknown_tool", "") :=
  rfl

/-- C8 (amended): every error envelope carried by a turn the driver appends
in one step (past the echoed assistant turn) has a non-empty error type, and
a non-empty message except for the `unknown_tool` envelope, whose message is
the requested tool name and is empty exactly when that name is empty. -/
theorem err_envelopes_amended (env : Env) (cfg : Cfg) (st : AgentState)
    (msg : Message) (i : Nat) (t m : String) (hi : st.messages.length + 1 ≤ i)
    (h : contentErrInfo
        (((stepMessages env cfg st msg).getD i dfltMsg).content) = some (t, m)) :
    t ≠ "" ∧ (m = "" → t = "unknown_tool") := by
  unfold stepMessages at h
  cases htc : msg.tool_calls with
  | nil =>
    simp only [runStep, htc] at h
    rw [List.getD_eq_getElem?_getD, List.getElem?_eq_none (by omega)] at h
    exact Option.noConfusion h
  | cons tc extras =>
    simp only [runStep, htc] at h
    refine execTool_getD_err env cfg _ st.dump_idx tc i t m ?_ h
    intro hM
    rw [getD_append_right_ge _ _ i (by simp [List.length_append]; omega)] at hM
    by_cases hq : i - (st.messages ++ [msg]).length < extras.length
    · rw [getD_map_tooMany extras _ hq] at hM
      have hM2 : (some ("too_many_tool_calls", "only one tool call per response allowed") :
          Option (String × String)) = some (t, m) := hM
      rw [Option.some.injEq, Prod.mk.injEq] at hM2
      obtain ⟨ht, hm⟩ := hM2
      refine ⟨by rw [← ht]; decide, fun h0 => ?_⟩
      rw [← hm] at h0
      exact absurd h0 (by decide)
    · rw [List.getD_eq_getElem?_getD,
          List.getElem?_eq_none (by simp only [List.length_map]; omega)] at hM
      exact Option.noConfusion hM

/-- C8 amended witness: the decode-error envelope appended for a bad
`click_mouse` argument string has type `invalid_arguments` and a non-empty
message. -/
theorem err_envelopes_amended_witness :
    ("invalid_arguments" : String) ≠ "" ∧
    ("JSON decode error: Expecting value" = "" →
      ("invalid_arguments" : String) = "unknown_tool") :=
  err_envelopes_amended envFail {} ⟨[], 0, ""⟩
    { role := "assistant", tool_calls := [⟨"id1", "click_mouse", .str "not json"⟩] }
    1 "invalid_arguments" "JSON decode error: Expecting value" (by decide) rfl
